import Mathlib

/-!
Verification of the face-recognition API core (Go sources under
`internal/services` and `internal/handlers`): detection post-processing,
selfie scoring, URL validation, download checks, and circle rendering,
shallowly embedded in Lean. Go `int`/`int64` become `Int` (with Go's
truncating division `Int.tdiv` where division occurs), Go `float32`
scores become `ℚ`, and Go strings become `List Char`.
-/

namespace FaceAPI

/-- Raw pigo detection (`pigo.Detection`): row, col, scale and score `Q`. -/
structure Detection where
  row : Int
  col : Int
  scale : Int
  q : ℚ
deriving DecidableEq

/-- Model of `models.Face`: x, y, width, height, confidence. -/
structure Face where
  x : Int
  y : Int
  width : Int
  height : Int
  confidence : ℚ
deriving DecidableEq

/-- The Face built from a surviving detection, `face_detector.go` lines 85-91:
`X = Col - Scale/2`, `Y = Row - Scale/2`, width and height the scale,
confidence the score. Go `/` on int truncates toward zero (`Int.tdiv`). -/
def faceOfDetection (d : Detection) : Face :=
  { x := d.col - d.scale.tdiv 2
    y := d.row - d.scale.tdiv 2
    width := d.scale
    height := d.scale
    confidence := d.q }

/-- The confidence filter of `DetectFaces` (lines 75-80): keep detections
with `Q >= MinConfidence`. -/
def filterDetections (dets : List Detection) (minConfidence : ℚ) : List Detection :=
  dets.filter (fun d => decide (minConfidence ≤ d.q))

/-- The pure part of `DetectFaces` after clustering (lines 74-94): filter by
confidence, then map to `Face` records. -/
def detectFacesPost (clustered : List Detection) (minConfidence : ℚ) : List Face :=
  (filterDetections clustered minConfidence).map faceOfDetection

/-- The full `DetectFaces` result never carries an error after the classifier ran: it ends
with `return faces, nil` (line 94). -/
def detectFaces (clustered : List Detection) (minConfidence : ℚ) :
    Except String (List Face) :=
  Except.ok (detectFacesPost clustered minConfidence)

/-- Model of `models.SelfieValidationResponse`. -/
structure SelfieValidationResponse where
  isValid : Bool
  issues : List String
  confidence : ℚ
  faceCount : Int
deriving DecidableEq

/-- Sum of face confidences, the `totalConfidence` accumulator of
`ValidateSelfie` (lines 122-125). -/
def sumConf (faces : List Face) : ℚ :=
  faces.foldl (fun a f => a + f.confidence) 0

/-- The face-count check of `ValidateSelfie` (lines 107-118): the validity
flag and issue list after the count comparisons. -/
def countCheck (faceCount minFaces maxFaces : Int) : Bool × List String :=
  if faceCount < minFaces then
    if faceCount = 0 then
      (false, ["No faces detected in image", "Image may be too dark or blurry"])
    else
      (false, ["Too few faces detected (" ++ toString faceCount ++
        " found, expected at least " ++ toString minFaces ++ ")"])
  else if faceCount > maxFaces then
    (false, ["Multiple faces detected (" ++ toString faceCount ++
      " found, expected " ++ toString maxFaces ++ ")"])
  else
    (true, [])

/-- Model of `ValidateSelfie` (`face_detector.go` lines 100-141), translated
clause by clause: face-count check first, then the mean-confidence check. -/
def validateSelfie (faces : List Face) (minFaces maxFaces : Int) :
    SelfieValidationResponse :=
  let faceCount : Int := (faces.length : Int)
  let step1 : Bool × List String := countCheck faceCount minFaces maxFaces
  let confidence : ℚ :=
    if faceCount > 0 then sumConf faces / (faceCount : ℚ) else 0
  let step2 : Bool × List String :=
    if faceCount > 0 then
      if sumConf faces / (faceCount : ℚ) < 10 then
        (false, step1.2 ++ ["Low confidence score for detected face(s)"])
      else step1
    else step1
  { isValid := step2.1
    issues := step2.2
    confidence := confidence
    faceCount := faceCount }

/-- Go `strings.HasPrefix s pat` as a list predicate: `listStartsWith pat s`. -/
def listStartsWith : List Char → List Char → Bool
  | [], _ => true
  | _ :: _, [] => false
  | p :: ps, c :: cs => p = c && listStartsWith ps cs

/-- Go `strings.Contains s pat` as a list predicate: `listContainsSub pat s`. -/
def listContainsSub (pat : List Char) : List Char → Bool
  | [] => pat.isEmpty
  | c :: cs => listStartsWith pat (c :: cs) || listContainsSub pat cs

/-- Go `strings.ToLower` restricted to ASCII, which covers every host and
content-type string the code compares against. -/
def lowerStr (s : List Char) : List Char := s.map Char.toLower

/-- Go `strings.ToUpper` restricted to ASCII. -/
def upperStr (s : List Char) : List Char := s.map Char.toUpper

/-- The `privateHosts` table of `isPrivateIP` (`image_downloader.go`
lines 177-182). -/
def privateHosts : List (List Char) :=
  ["localhost".data, "127.0.0.1".data, "0.0.0.0".data, "::1".data]

/-- Model of `isPrivateIP` (`image_downloader.go` lines 175-199): lowercase the host,
test a substring match against each private host, then the three prefixes. -/
def isPrivateIP (host : List Char) : Bool :=
  let h := lowerStr host
  privateHosts.any (fun p => listContainsSub p h) ||
    (listStartsWith "10.".data h || listStartsWith "192.168.".data h ||
      listStartsWith "172.".data h)

/-- The parts of a parsed URL that `validateURL` inspects. -/
structure URLParts where
  scheme : List Char
  host : List Char
deriving DecidableEq

inductive URLError
  | emptyURL
  | invalidFormat
  | badScheme
  | missingHost
  | privateIP
deriving DecidableEq

/-- Model of `validateURL` (`image_downloader.go` lines 126-152). The stdlib
`url.Parse` outcome is abstracted as an `Option URLParts` input (`none`
meaning a parse error); the checks on its result are the code's own. -/
def validateURL (raw : List Char) (parsed : Option URLParts) : Except URLError Unit :=
  if raw = [] then .error .emptyURL
  else
    match parsed with
    | none => .error .invalidFormat
    | some u =>
      if u.scheme ≠ "http".data ∧ u.scheme ≠ "https".data then .error .badScheme
      else if u.host = [] then .error .missingHost
      else if isPrivateIP u.host then .error .privateIP
      else .ok ()

/-- The `validTypes` table of `isValidImageType` (lines 156-162). -/
def validTypes : List (List Char) :=
  ["image/jpeg".data, "image/jpg".data, "image/png".data,
    "image/gif".data, "image/webp".data]

/-- Model of `isValidImageType` (lines 155-172): take the part before any `;`,
lowercase it, and compare against the table. -/
def isValidImageType (ct : List Char) : Bool :=
  let c := lowerStr (ct.takeWhile (fun ch => ch ≠ ';'))
  validTypes.any (fun v => decide (c = v))

/-- The image formats that can occur as the true format of a fetched body. -/
inductive ImgFormat
  | jpeg
  | png
  | gif
  | webp
deriving DecidableEq

/-- The format string `image.Decode` reports for each format. -/
def formatName : ImgFormat → List Char
  | .jpeg => "jpeg".data
  | .png => "png".data
  | .gif => "gif".data
  | .webp => "webp".data

/-- The decoders registered with Go's `image` package: the file's only blank
decoder imports are `image/jpeg` and `image/png` (lines 14-15). -/
def registeredFormats : List ImgFormat := [.jpeg, .png]

/-- A response body abstracted to what decoding observes: the true format of
the byte stream, whether it is a well-formed image of that format, its pixel
dimensions, and its actual byte count. -/
structure Body where
  format : ImgFormat
  wellFormed : Bool
  width : Int
  height : Int
  byteCount : Int
deriving DecidableEq

/-- Stdlib `image.Decode` against the registered decoders: it succeeds
exactly on a well-formed image whose format has a registered decoder, and
reports that format's name. -/
def imageDecode (b : Body) : Option (List Char) :=
  if b.wellFormed && decide (b.format ∈ registeredFormats) then some (formatName b.format)
  else none

/-- The fields of an HTTP response that `DownloadImage` inspects after the
request itself succeeded. `contentLength` is Go's `resp.ContentLength`,
`-1` when unknown. -/
structure HTTPResponse where
  statusCode : Int
  contentType : List Char
  contentLength : Int
  body : Body
deriving DecidableEq

inductive DownloadError
  | httpStatus
  | unsupportedType
  | tooLarge
  | decodeFailed
  | dimsTooLarge
deriving DecidableEq

/-- Model of `models.ImageMetadata` without the URL field. -/
structure ImageMetadata where
  width : Int
  height : Int
  format : List Char
  sizeBytes : Int
deriving DecidableEq

/-- The check sequence of `DownloadImage` after a successful request
(`image_downloader.go` lines 75-112): HTTP status, content type, declared
content length against `MaxImageSize`, decode, then decoded dimensions
against `MaxWidth`/`MaxHeight`. The metadata records the uppercased format
and the declared content length. -/
def downloadImageChecks (maxImageSize maxWidth maxHeight : Int)
    (resp : HTTPResponse) : Except DownloadError ImageMetadata :=
  if resp.statusCode ≠ 200 then .error .httpStatus
  else if ¬ isValidImageType resp.contentType then .error .unsupportedType
  else if resp.contentLength > maxImageSize then .error .tooLarge
  else
    match imageDecode resp.body with
    | none => .error .decodeFailed
    | some fmt =>
      if resp.body.width > maxWidth ∨ resp.body.height > maxHeight then
        .error .dimsTooLarge
      else
        .ok { width := resp.body.width, height := resp.body.height,
              format := upperStr fmt, sizeBytes := resp.contentLength }

/-- An RGBA color value. -/
structure RGBA where
  r : Nat
  g : Nat
  b : Nat
  a : Nat
deriving DecidableEq

/-- An `image.RGBA` abstracted to its bounds rectangle and a pixel map. -/
structure RGBAImage where
  minX : Int
  minY : Int
  maxX : Int
  maxY : Int
  pix : Int → Int → RGBA

/-- The bounds test of `setPixelSafe` (`image_processor.go` line 104). -/
def inBounds (img : RGBAImage) (x y : Int) : Bool :=
  decide (img.minX ≤ x) && decide (x < img.maxX) &&
    decide (img.minY ≤ y) && decide (y < img.maxY)

/-- Model of `setPixelSafe` (lines 102-107): write the pixel only when it lies inside
the bounds, otherwise leave the image untouched. -/
def setPixelSafe (img : RGBAImage) (x y : Int) (col : RGBA) : RGBAImage :=
  if inBounds img x y then
    { img with pix := fun a b => if a = x ∧ b = y then col else img.pix a b }
  else img

/-- Sequential `setPixelSafe` writes at a list of coordinates. -/
def writeList (img : RGBAImage) (pts : List (Int × Int)) (col : RGBA) : RGBAImage :=
  pts.foldl (fun im pt => setPixelSafe im pt.1 pt.2 col) img

/-- The 8 reflected coordinates one pass of the loop body of `drawCircle`
writes (lines 81-88), in source order. -/
def sym8 (cx cy x y : Int) : List (Int × Int) :=
  [(cx + x, cy + y), (cx - x, cy + y), (cx + x, cy - y), (cx - x, cy - y),
    (cx + y, cy + x), (cx - y, cy + x), (cx + y, cy - x), (cx - y, cy - x)]

/-- The 8-way symmetric plot of `drawCircle` (lines 81-88): the eight
`setPixelSafe` calls in source order. -/
def plot8 (img : RGBAImage) (cx cy x y : Int) (col : RGBA) : RGBAImage :=
  writeList img (sym8 cx cy x y) col

/-- The `(x, y)` pairs visited by the midpoint loop of `drawCircle`
(lines 75-97), with an explicit fuel bound on the iteration count. The loop
runs while `x ≤ y`; since `x` starts at `0` and increases by one each pass
while `y` never grows, `r + 1` passes always suffice, so the fueled version
agrees with the Go loop. -/
def bresPoints : Nat → Int → Int → Int → List (Int × Int)
  | 0, _, _, _ => []
  | fuel + 1, x, y, d =>
    if x ≤ y then
      (x, y) ::
        (if d < 0 then bresPoints fuel (x + 1) y (d + 4 * x + 6)
          else bresPoints fuel (x + 1) (y - 1) (d + 4 * (x - y) + 10))
    else []

/-- The visited pairs for one circle of radius `r`: `x = 0`, `y = r`,
`d = 3 - 2r` initially. -/
def circlePoints (r : Int) : List (Int × Int) :=
  bresPoints (r + 1).toNat 0 r (3 - 2 * r)

/-- Plot the 8-way reflections of each visited pair, in visit order. -/
def drawPoints (img : RGBAImage) (cx cy : Int) (pts : List (Int × Int))
    (col : RGBA) : RGBAImage :=
  pts.foldl (fun im p => plot8 im cx cy p.1 p.2 col) img

/-- Model of `drawCircle` (lines 67-99): for each stroke offset `w` in
`[0, lineWidth)`, skip it when `radius + w - lineWidth/2 ≤ 0`, else draw the
outline of that radius. Go division truncates (`Int.tdiv`). -/
def drawCircle (img : RGBAImage) (centerX centerY radius : Int) (col : RGBA)
    (lineWidth : Int) : RGBAImage :=
  (List.range lineWidth.toNat).foldl
    (fun im (w : Nat) =>
      let r := radius + (w : Int) - lineWidth.tdiv 2
      if r ≤ 0 then im else drawPoints im centerX centerY (circlePoints r) col)
    img

/-- The private copy made by `DrawFaceCircles` (lines 38-40):
`image.NewRGBA(bounds)` is zero-initialized and `draw.Draw` copies the
source over the bounds rectangle. -/
def copyImage (img : RGBAImage) : RGBAImage :=
  { img with pix := fun a b => if inBounds img a b then img.pix a b else ⟨0, 0, 0, 0⟩ }

/-- Model of `DrawFaceCircles` up to encoding (lines 36-49): copy the source, then
draw one circle per face with center `(x + width/2, y + height/2)` and
radius `max(width, height)/2`. -/
def drawFaceCircles (img : RGBAImage) (faces : List Face) (col : RGBA)
    (lineWidth : Int) : RGBAImage :=
  faces.foldl
    (fun im f =>
      drawCircle im (f.x + f.width.tdiv 2) (f.y + f.height.tdiv 2)
        ((max f.width f.height).tdiv 2) col lineWidth)
    (copyImage img)

/-- All coordinates a run of `drawPoints` may write. -/
def ptsWrites (cx cy : Int) (pts : List (Int × Int)) : List (Int × Int) :=
  pts.foldr (fun p acc => sym8 cx cy p.1 p.2 ++ acc) []

/-- All coordinates the stroke offsets in `ws` may write. -/
def offsetWrites (cx cy radius lineWidth : Int) (ws : List Nat) : List (Int × Int) :=
  ws.foldr
    (fun (w : Nat) acc =>
      (let r := radius + (w : Int) - lineWidth.tdiv 2
        if r ≤ 0 then [] else ptsWrites cx cy (circlePoints r)) ++ acc)
    []

/-- All coordinates one `drawCircle` call may write. -/
def circleWrites (cx cy radius lineWidth : Int) : List (Int × Int) :=
  offsetWrites cx cy radius lineWidth (List.range lineWidth.toNat)

/-- All coordinates the circle for one face may write. -/
def faceWrites (lineWidth : Int) (f : Face) : List (Int × Int) :=
  circleWrites (f.x + f.width.tdiv 2) (f.y + f.height.tdiv 2)
    ((max f.width f.height).tdiv 2) lineWidth

/-- All coordinates `drawFaceCircles` may write. -/
def facesWrites (faces : List Face) (lineWidth : Int) : List (Int × Int) :=
  faces.foldr (fun f acc => faceWrites lineWidth f ++ acc) []

/-- Left edge of a detection's square bounding region. -/
def boxX (d : Detection) : Int := d.col - d.scale.tdiv 2

/-- Top edge of a detection's square bounding region. -/
def boxY (d : Detection) : Int := d.row - d.scale.tdiv 2

/-- Length of the overlap of two segments `[a1, a1+s1)` and `[a2, a2+s2)`
(possibly negative when they are disjoint). -/
def interLen (a1 s1 a2 s2 : Int) : Int := min (a1 + s1) (a2 + s2) - max a1 a2

/-- Overlap area of the two square regions. -/
def interArea (d e : Detection) : Int :=
  max 0 (interLen (boxX d) d.scale (boxX e) e.scale) *
    max 0 (interLen (boxY d) d.scale (boxY e) e.scale)

/-- Combined area of the two square regions. -/
def unionArea (d e : Detection) : Int :=
  d.scale * d.scale + e.scale * e.scale - interArea d e

/-- Modelled from the spec: intersection-over-union of the square bounding
regions of two detections, the similarity measure the clustering step uses. -/
def iou (d e : Detection) : ℚ := (interArea d e : ℚ) / (unionArea d e : ℚ)

/-- Sort key realizing the spec's stable, score-aware processing order:
score descending, ties broken by row, col, scale. -/
def detKey (d : Detection) : ℚ ×ₗ (Int ×ₗ (Int ×ₗ Int)) :=
  toLex (-d.q, toLex (d.row, toLex (d.col, d.scale)))

/-- The processing order on detections. -/
def detLE (d e : Detection) : Prop := detKey d ≤ detKey e

instance : DecidableRel detLE :=
  fun d e => inferInstanceAs (Decidable (detKey d ≤ detKey e))

instance : IsTotal Detection detLE :=
  ⟨fun d e => le_total (detKey d) (detKey e)⟩

instance : IsTrans Detection detLE :=
  ⟨fun _ _ _ h1 h2 => le_trans h1 h2⟩

instance : IsAntisymm Detection detLE :=
  ⟨fun d e h1 h2 => by
    have h := le_antisymm h1 h2
    cases d
    cases e
    simp only [detKey, toLex_inj, Prod.mk.injEq, neg_inj] at h
    simp_all⟩

/-- Greedy pass over detections in processing order: keep the head as a
group representative and drop every later detection whose IoU with it
exceeds the threshold. -/
def clusterGreedy (t : ℚ) : List Detection → List Detection
  | [] => []
  | d :: rest => d :: clusterGreedy t (rest.filter (fun e => decide (iou d e ≤ t)))
termination_by l => l.length
decreasing_by
  simp only [List.length_cons]
  exact Nat.lt_succ_of_le (List.length_filter_le _ _)

/-- Modelled from the spec: pigo's `ClusterDetections` is a call into the
third-party library github.com/esimov/pigo, whose source is not part of this
repository. The spec specifies grouping detections whose pairwise IoU of the
square bounding regions exceeds `IoUThreshold`, each group collapsing to its
highest-score member, processed in a stable, score-aware order so the result
does not depend on the input ordering. -/
def clusterDetections (t : ℚ) (dets : List Detection) : List Detection :=
  clusterGreedy t (List.insertionSort detLE dets)

inductive AcquireError
  | invalidURL
  | downloadFailed
  | unsupportedFormat
  | tooLarge
  | decodeFailed
deriving DecidableEq

/-- A `{error, code}` JSON body together with its HTTP status, as emitted by
`writeErrorResponse` (handlers, lines 296-310). -/
structure ErrorResponse where
  status : Nat
  code : String
  message : String
deriving DecidableEq

/-- The single response `DetectHandler` emits for every failure coming out
of `DownloadImage`, whatever its cause (handlers, lines 137-141). -/
def acquireErrorResponse (_e : AcquireError) : ErrorResponse :=
  { status := 400, code := "IMAGE_DOWNLOAD_FAILED",
    message := "Failed to download image" }

/-- The response for a `DetectFaces` failure (handlers, line 146). -/
def detectionFailedResponse : ErrorResponse :=
  { status := 500, code := "FACE_DETECTION_FAILED",
    message := "Face detection failed" }

/-- The response for a `DrawFaceCircles` failure (handlers, line 269). -/
def processingFailedResponse : ErrorResponse :=
  { status := 500, code := "IMAGE_PROCESSING_FAILED",
    message := "Failed to process image" }

/-- The success payload of `/detect`. -/
structure DetectResponse where
  faces : List Face
  count : Nat
deriving DecidableEq

/-- Model of `DetectHandler` after JSON decoding (handlers, lines 118-161), with the
download outcome and the classifier's clustered detections abstracted as
inputs: a download failure aborts with 400, a detection failure with 500,
otherwise the full face list is returned. -/
def detectHandler (download : Except AcquireError (List Detection))
    (minConf : ℚ) : Except ErrorResponse DetectResponse :=
  match download with
  | .error e => .error (acquireErrorResponse e)
  | .ok clustered =>
    match detectFaces clustered minConf with
    | .error _ => .error detectionFailedResponse
    | .ok faces => .ok { faces := faces, count := faces.length }

/-- Model of `DetectVisualHandler` after JSON decoding (handlers, lines 219-293),
with the render outcome abstracted as an input: a render failure aborts with
500 and code `IMAGE_PROCESSING_FAILED`. -/
def detectVisualHandler (download : Except AcquireError (List Detection))
    (minConf : ℚ) (renderResult : Except String String) :
    Except ErrorResponse (String × DetectResponse) :=
  match download with
  | .error e => .error (acquireErrorResponse e)
  | .ok clustered =>
    match detectFaces clustered minConf with
    | .error _ => .error detectionFailedResponse
    | .ok faces =>
      match renderResult with
      | .error _ => .error processingFailedResponse
      | .ok b64 => .ok (b64, { faces := faces, count := faces.length })

/-- A concrete 10×10 all-black test image. -/
def testImg : RGBAImage :=
  { minX := 0, minY := 0, maxX := 10, maxY := 10, pix := fun _ _ => ⟨0, 0, 0, 0⟩ }

/-- C1: every Face produced by the confidence filter and mapping of
`DetectFaces` has width = height = the source detection's scale,
x = col − scale/2 and y = row − scale/2 with truncating integer division,
and confidence equal to the detection's score; and the raw detection
(row 200, col 300, scale 80, score 20) under MinConfidence 12 maps to the
single face (x 260, y 160, width 80, height 80, confidence 20). -/
theorem C1_face_mapping :
    (∀ (clustered : List Detection) (minConf : ℚ) (d : Detection),
        d ∈ clustered → minConf ≤ d.q →
          faceOfDetection d ∈ detectFacesPost clustered minConf ∧
          faceOfDetection d =
            { x := d.col - d.scale.tdiv 2, y := d.row - d.scale.tdiv 2,
              width := d.scale, height := d.scale, confidence := d.q }) ∧
    (∀ (clustered : List Detection) (minConf : ℚ) (f : Face),
        f ∈ detectFacesPost clustered minConf →
          ∃ d, d ∈ clustered ∧ minConf ≤ d.q ∧
            f.width = d.scale ∧ f.height = d.scale ∧
            f.x = d.col - d.scale.tdiv 2 ∧ f.y = d.row - d.scale.tdiv 2 ∧
            f.confidence = d.q) ∧
      detectFacesPost [{ row := 200, col := 300, scale := 80, q := 20 }] 12 =
        [{ x := 260, y := 160, width := 80, height := 80, confidence := 20 }] := by
  refine ⟨?_, ?_, rfl⟩
  · intro clustered minConf d hd hq
    refine ⟨?_, rfl⟩
    simp only [detectFacesPost, filterDetections, List.mem_map,
      List.mem_filter, decide_eq_true_eq]
    exact ⟨d, ⟨hd, hq⟩, rfl⟩
  · intro clustered minConf f hf
    simp only [detectFacesPost, filterDetections, List.mem_map,
      List.mem_filter, decide_eq_true_eq] at hf
    obtain ⟨d, ⟨hd, hq⟩, rfl⟩ := hf
    exact ⟨d, hd, hq, rfl, rfl, rfl, rfl, rfl⟩

/-- C4: the confidence filter keeps exactly the detections whose score is at
least MinConfidence; a score equal to the threshold is retained, one
strictly below is dropped, and when nothing survives `DetectFaces` returns
an empty face list with no error. -/
theorem C4_confidence_filter :
    (∀ (dets : List Detection) (minConf : ℚ) (d : Detection), d ∈ dets →
        (d ∈ filterDetections dets minConf ↔ minConf ≤ d.q)) ∧
      filterDetections [{ row := 0, col := 0, scale := 10, q := 12 }] 12 =
        [{ row := 0, col := 0, scale := 10, q := 12 }] ∧
      filterDetections [{ row := 0, col := 0, scale := 10, q := 11 }] 12 = [] ∧
      (∀ (clustered : List Detection) (minConf : ℚ),
        (∀ d, d ∈ clustered → d.q < minConf) →
          detectFaces clustered minConf = Except.ok []) := by
  refine ⟨?_, by decide, by decide, ?_⟩
  · intro dets minConf d hd
    simp [filterDetections, List.mem_filter, hd]
  · intro clustered minConf h
    have hfil : filterDetections clustered minConf = [] := by
      simp only [filterDetections, List.filter_eq_nil_iff]
      intro d hd
      simpa using not_le.mpr (h d hd)
    simp [detectFaces, detectFacesPost, hfil]

/-- C2: `ValidateSelfie` reports invalid with exactly the two fixed issues
and confidence 0 on an empty face list when minFaces ≥ 1; invalid with one
shortfall issue (plus possibly the low-confidence issue) when
0 < faceCount < minFaces; invalid with one excess issue when
minFaces ≤ faceCount and faceCount > maxFaces; for a non-empty list the
confidence is the arithmetic mean of the face confidences and a mean below
10 forces invalidity and appends the one low-confidence issue; and one face
with confidence 15 under min = max = 1 is valid with no issues. -/
theorem C2_validate_selfie :
    (∀ (minF maxF : Int), 1 ≤ minF →
        validateSelfie [] minF maxF =
          { isValid := false,
            issues := ["No faces detected in image", "Image may be too dark or blurry"],
            confidence := 0, faceCount := 0 }) ∧
    (∀ (faces : List Face) (minF maxF : Int),
        0 < (faces.length : Int) → (faces.length : Int) < minF →
          (validateSelfie faces minF maxF).isValid = false ∧
          (validateSelfie faces minF maxF).issues =
            ["Too few faces detected (" ++ toString ((faces.length : Int)) ++
              " found, expected at least " ++ toString minF ++ ")"] ++
            (if sumConf faces / ((faces.length : Int) : ℚ) < 10 then
              ["Low confidence score for detected face(s)"] else [])) ∧
    (∀ (faces : List Face) (minF maxF : Int),
        minF ≤ (faces.length : Int) → maxF < (faces.length : Int) →
          (validateSelfie faces minF maxF).isValid = false ∧
          (validateSelfie faces minF maxF).issues =
            ["Multiple faces detected (" ++ toString ((faces.length : Int)) ++
              " found, expected " ++ toString maxF ++ ")"] ++
            (if (faces.length : Int) > 0 ∧ sumConf faces / ((faces.length : Int) : ℚ) < 10 then
              ["Low confidence score for detected face(s)"] else [])) ∧
    (∀ (faces : List Face) (minF maxF : Int), 0 < (faces.length : Int) →
        (validateSelfie faces minF maxF).confidence =
          sumConf faces / ((faces.length : Int) : ℚ) ∧
        (sumConf faces / ((faces.length : Int) : ℚ) < 10 →
          (validateSelfie faces minF maxF).isValid = false ∧
          (validateSelfie faces minF maxF).issues =
            (countCheck (faces.length : Int) minF maxF).2 ++
              ["Low confidence score for detected face(s)"])) ∧
    validateSelfie [{ x := 0, y := 0, width := 10, height := 10, confidence := 15 }] 1 1 =
      { isValid := true, issues := [], confidence := 15, faceCount := 1 } := by
  refine ⟨?_, ?_, ?_, ?_, ?_⟩
  · intro minF maxF h
    have h1 : (0 : Int) < minF := by omega
    simp [validateSelfie, countCheck, h1]
  · intro faces minF maxF h0 hlt
    have hne : ((faces.length : Int)) ≠ 0 := by omega
    have hcc : countCheck (faces.length : Int) minF maxF =
        (false, ["Too few faces detected (" ++ toString ((faces.length : Int)) ++
          " found, expected at least " ++ toString minF ++ ")"]) := by
      simp [countCheck, hlt, hne]
    constructor
    · simp only [validateSelfie, hcc, if_pos h0]
      split <;> rfl
    · simp only [validateSelfie, hcc, if_pos h0]
      split <;> simp_all
  · intro faces minF maxF hmin hmax
    have hnl : ¬ ((faces.length : Int)) < minF := by omega
    have hcc : countCheck (faces.length : Int) minF maxF =
        (false, ["Multiple faces detected (" ++ toString ((faces.length : Int)) ++
          " found, expected " ++ toString maxF ++ ")"]) := by
      simp [countCheck, hnl, hmax]
    constructor
    · simp only [validateSelfie, hcc]
      split
      · split <;> rfl
      · rfl
    · simp only [validateSelfie, hcc]
      by_cases h0 : ((faces.length : Int)) > 0
      · rw [if_pos h0]
        by_cases hm : sumConf faces / (((faces.length : Int)) : ℚ) < 10
        · rw [if_pos hm, if_pos ⟨h0, hm⟩]
        · rw [if_neg hm, if_neg (fun hc => hm hc.2)]
          simp
      · rw [if_neg h0, if_neg (fun hc => h0 hc.1)]
        simp
  · intro faces minF maxF h0
    refine ⟨?_, fun hconf => ⟨?_, ?_⟩⟩
    · simp only [validateSelfie]
      rw [if_pos h0]
    · simp only [validateSelfie]
      rw [if_pos h0, if_pos hconf]
    · simp only [validateSelfie]
      rw [if_pos h0, if_pos hconf]
  · simp only [validateSelfie, countCheck, sumConf, List.foldl_cons, List.foldl_nil,
      List.length_cons, List.length_nil]
    norm_num

theorem listStartsWith_lower (pat : List Char) (hp : lowerStr pat = pat) :
    ∀ s : List Char, listStartsWith pat s = true →
      listStartsWith pat (lowerStr s) = true := by
  induction pat with
  | nil => intro s _; cases s <;> rfl
  | cons p ps ih =>
    intro s h
    cases s with
    | nil => simp [listStartsWith] at h
    | cons c cs =>
      simp only [listStartsWith, Bool.and_eq_true, decide_eq_true_eq] at h
      obtain ⟨rfl, h2⟩ := h
      simp only [lowerStr, List.map_cons, List.cons.injEq] at hp
      simp only [lowerStr, List.map_cons, listStartsWith, Bool.and_eq_true,
        decide_eq_true_eq]
      exact ⟨(hp.1).symm, ih (by simpa [lowerStr] using hp.2) cs h2⟩

theorem isPrivateIP_of_contains (host p : List Char) (hp : p ∈ privateHosts)
    (h : listContainsSub p (lowerStr host) = true) : isPrivateIP host = true := by
  simp only [isPrivateIP, Bool.or_eq_true, List.any_eq_true]
  exact Or.inl ⟨p, hp, h⟩

theorem isPrivateIP_of_starts (host pat : List Char)
    (hpat : pat = "10.".data ∨ pat = "192.168.".data ∨ pat = "172.".data)
    (h : listStartsWith pat host = true) : isPrivateIP host = true := by
  have hfix : lowerStr pat = pat := by
    rcases hpat with rfl | rfl | rfl <;> rfl
  have hl := listStartsWith_lower pat hfix host h
  simp only [isPrivateIP, Bool.or_eq_true]
  rcases hpat with rfl | rfl | rfl
  · exact Or.inr (Or.inl (Or.inl hl))
  · exact Or.inr (Or.inl (Or.inr hl))
  · exact Or.inr (Or.inr hl)

/-- C3: `validateURL` accepts exactly the non-empty, parseable URLs whose
scheme is http or https, whose host is non-empty and matches no
private/loopback rule; it rejects scheme ftp, every host whose lowercasing
contains localhost, 127.0.0.1, 0.0.0.0 or ::1 as a substring, and every
host starting with 10., 192.168. or 172.; and it accepts a plain http URL
with an ordinary host. -/
theorem C3_validate_url :
    (∀ (raw : List Char) (parsed : Option URLParts),
        validateURL raw parsed = .ok () ↔
          raw ≠ [] ∧ ∃ u, parsed = some u ∧
            (u.scheme = "http".data ∨ u.scheme = "https".data) ∧
            u.host ≠ [] ∧ isPrivateIP u.host = false) ∧
    (∀ (raw : List Char) (u : URLParts), u.scheme = "ftp".data →
        validateURL raw (some u) ≠ .ok ()) ∧
    (∀ (raw : List Char) (u : URLParts) (p : List Char), p ∈ privateHosts →
        listContainsSub p (lowerStr u.host) = true →
        validateURL raw (some u) ≠ .ok ()) ∧
    (∀ (raw : List Char) (u : URLParts),
        (listStartsWith "10.".data u.host = true ∨
          listStartsWith "192.168.".data u.host = true ∨
          listStartsWith "172.".data u.host = true) →
        validateURL raw (some u) ≠ .ok ()) ∧
    validateURL "http://example.com/a.jpg".data
      (some { scheme := "http".data, host := "example.com".data }) = .ok () := by
  have hrej : ∀ (raw : List Char) (u : URLParts), isPrivateIP u.host = true →
      validateURL raw (some u) ≠ .ok () := by
    intro raw u hpriv h
    by_cases hraw : raw = []
    · simp [validateURL, hraw] at h
    · by_cases hs : u.scheme ≠ "http".data ∧ u.scheme ≠ "https".data
      · simp [validateURL, hraw, hs] at h
      · by_cases hh : u.host = []
        · simp [validateURL, hraw, hs, hh] at h
        · simp [validateURL, hraw, hs, hh, hpriv] at h
  refine ⟨?_, ?_, ?_, ?_, by rfl⟩
  · intro raw parsed
    cases parsed with
    | none =>
      simp only [validateURL]
      split <;> simp
    | some u =>
      simp only [validateURL]
      split_ifs with h1 h2 h3 h4 <;>
        simp_all [not_and_or, not_not, Bool.not_eq_true] <;> tauto
  · intro raw u hs h
    by_cases hraw : raw = []
    · simp [validateURL, hraw] at h
    · simp +decide [validateURL, hraw, hs] at h
  · intro raw u p hp hsub
    exact hrej raw u (isPrivateIP_of_contains u.host p hp hsub)
  · intro raw u hpre
    rcases hpre with h | h | h
    · exact hrej raw u (isPrivateIP_of_starts u.host _ (Or.inl rfl) h)
    · exact hrej raw u (isPrivateIP_of_starts u.host _ (Or.inr (Or.inl rfl)) h)
    · exact hrej raw u (isPrivateIP_of_starts u.host _ (Or.inr (Or.inr rfl)) h)

/-- C9: with an unknown declared Content-Length (reported as −1) the
pre-decode size check never rejects the response as too large, whatever the
actual body byte count; given the earlier checks pass, the tooLarge
rejection happens exactly when the declared Content-Length strictly exceeds
MaxImageSize; and the checks never consult the actual body byte count. -/
theorem C9_unknown_content_length :
    (∀ (maxSize maxW maxH : Int) (resp : HTTPResponse),
        resp.contentLength = -1 → 0 ≤ maxSize →
          downloadImageChecks maxSize maxW maxH resp ≠ .error .tooLarge) ∧
    (∀ (maxSize maxW maxH : Int) (resp : HTTPResponse),
        resp.statusCode = 200 → isValidImageType resp.contentType = true →
          (downloadImageChecks maxSize maxW maxH resp = .error .tooLarge ↔
            resp.contentLength > maxSize)) ∧
    (∀ (maxSize maxW maxH : Int) (resp : HTTPResponse) (n m : Int),
        downloadImageChecks maxSize maxW maxH
            { resp with body := { resp.body with byteCount := n } } =
          downloadImageChecks maxSize maxW maxH
            { resp with body := { resp.body with byteCount := m } }) := by
  refine ⟨?_, ?_, ?_⟩
  · intro maxSize maxW maxH resp hcl hms h
    by_cases h1 : resp.statusCode ≠ 200
    · rw [downloadImageChecks, if_pos h1] at h
      simp at h
    · by_cases h2 : ¬ isValidImageType resp.contentType
      · rw [downloadImageChecks, if_neg h1, if_pos h2] at h
        simp at h
      · have h3 : ¬ resp.contentLength > maxSize := by
          rw [hcl]; omega
        rw [downloadImageChecks, if_neg h1, if_neg h2, if_neg h3] at h
        rcases hdec : imageDecode resp.body with _ | fmt <;> simp only [hdec] at h
        · simp at h
        · by_cases h4 : resp.body.width > maxW ∨ resp.body.height > maxH
          · rw [if_pos h4] at h
            simp at h
          · rw [if_neg h4] at h
            simp at h
  · intro maxSize maxW maxH resp hst hct
    have h1 : ¬ resp.statusCode ≠ 200 := by simp [hst]
    have h2 : ¬ ¬ isValidImageType resp.contentType := by simp [hct]
    rw [downloadImageChecks, if_neg h1, if_neg h2]
    by_cases hcl : resp.contentLength > maxSize
    · simp [hcl]
    · rw [if_neg hcl]
      simp only [hcl, iff_false]
      intro h
      rcases hdec : imageDecode resp.body with _ | fmt <;> simp only [hdec] at h
      · simp at h
      · by_cases h4 : resp.body.width > maxW ∨ resp.body.height > maxH
        · rw [if_pos h4] at h
          simp at h
        · rw [if_neg h4] at h
          simp at h
  · intro maxSize maxW maxH resp n m
    rfl

/-- C10: only the JPEG and PNG decoders are registered with the image
package, so a response whose content type is image/gif or image/webp passes
the content-type check but `DownloadImage` can never succeed on a gif or
webp body: once the earlier checks pass the result is the decode-failure
error, and a successful download always reports format JPEG or PNG. -/
theorem C10_registered_decoders :
    isValidImageType "image/gif".data = true ∧
    isValidImageType "image/webp".data = true ∧
    (∀ (maxSize maxW maxH : Int) (resp : HTTPResponse),
        (resp.body.format = .gif ∨ resp.body.format = .webp) →
          ∀ meta, downloadImageChecks maxSize maxW maxH resp ≠ .ok meta) ∧
    (∀ (maxSize maxW maxH : Int) (resp : HTTPResponse),
        resp.statusCode = 200 → isValidImageType resp.contentType = true →
          ¬ resp.contentLength > maxSize →
          (resp.body.format = .gif ∨ resp.body.format = .webp) →
          downloadImageChecks maxSize maxW maxH resp = .error .decodeFailed) ∧
    (∀ (maxSize maxW maxH : Int) (resp : HTTPResponse) (meta : ImageMetadata),
        downloadImageChecks maxSize maxW maxH resp = .ok meta →
          meta.format = "JPEG".data ∨ meta.format = "PNG".data) := by
  have hdecnone : ∀ (b : Body), b.format = .gif ∨ b.format = .webp →
      imageDecode b = none := by
    intro b hb
    rcases hb with hb | hb <;>
      simp [imageDecode, registeredFormats, hb]
  refine ⟨by decide, by decide, ?_, ?_, ?_⟩
  · intro maxSize maxW maxH resp hfmt meta h
    by_cases h1 : resp.statusCode ≠ 200
    · rw [downloadImageChecks, if_pos h1] at h
      simp at h
    · by_cases h2 : ¬ isValidImageType resp.contentType
      · rw [downloadImageChecks, if_neg h1, if_pos h2] at h
        simp at h
      · by_cases h3 : resp.contentLength > maxSize
        · rw [downloadImageChecks, if_neg h1, if_neg h2, if_pos h3] at h
          simp at h
        · rw [downloadImageChecks, if_neg h1, if_neg h2, if_neg h3] at h
          simp only [hdecnone resp.body hfmt] at h
          simp at h
  · intro maxSize maxW maxH resp hst hct hcl hfmt
    have h1 : ¬ resp.statusCode ≠ 200 := by simp [hst]
    have h2 : ¬ ¬ isValidImageType resp.contentType := by simp [hct]
    rw [downloadImageChecks, if_neg h1, if_neg h2, if_neg hcl]
    simp only [hdecnone resp.body hfmt]
  · intro maxSize maxW maxH resp meta h
    by_cases h1 : resp.statusCode ≠ 200
    · rw [downloadImageChecks, if_pos h1] at h
      simp at h
    · by_cases h2 : ¬ isValidImageType resp.contentType
      · rw [downloadImageChecks, if_neg h1, if_pos h2] at h
        simp at h
      · by_cases h3 : resp.contentLength > maxSize
        · rw [downloadImageChecks, if_neg h1, if_neg h2, if_pos h3] at h
          simp at h
        · rw [downloadImageChecks, if_neg h1, if_neg h2, if_neg h3] at h
          rcases hdec : imageDecode resp.body with _ | fmt <;> simp only [hdec] at h
          · simp at h
          · have hmem : resp.body.format ∈ registeredFormats ∧
                fmt = formatName resp.body.format := by
              simp only [imageDecode] at hdec
              split_ifs at hdec with hcond
              simp only [Bool.and_eq_true, decide_eq_true_eq] at hcond
              exact ⟨hcond.2, by injection hdec with h5; exact h5.symm⟩
            by_cases h4 : resp.body.width > maxW ∨ resp.body.height > maxH
            · rw [if_pos h4] at h
              simp at h
            · rw [if_neg h4] at h
              have hm : meta.format = upperStr fmt := by
                injection h with h6
                rw [← h6]
              rcases (by simpa [registeredFormats] using hmem.1 :
                  resp.body.format = ImgFormat.jpeg ∨
                    resp.body.format = ImgFormat.png) with h7 | h7
              · left
                rw [hm, hmem.2, h7]
                rfl
              · right
                rw [hm, hmem.2, h7]
                rfl

/-- C8 counterexample: two distinct errors of the taxonomy (InvalidURL and
TooLarge) yield the identical error response from the detect pipeline, so
the mapping from the error taxonomy to response codes/messages is not 1:1
as the claim states. -/
theorem C8_counterexample :
    detectHandler (Except.error AcquireError.invalidURL) 12 =
      detectHandler (Except.error AcquireError.tooLarge) 12 ∧
      AcquireError.invalidURL ≠ AcquireError.tooLarge :=
  ⟨rfl, by decide⟩

/-- C8 amended: a failure in any pipeline stage aborts the whole request
with no partial results, and the HTTP statuses are as claimed (400 for
acquirer errors, 500 for detection and render failures); but every acquirer
error maps to the one response (400, IMAGE_DOWNLOAD_FAILED, "Failed to
download image") rather than to a distinct code per taxonomy entry, while
detection failures map to (500, FACE_DETECTION_FAILED) and render failures
to (500, IMAGE_PROCESSING_FAILED). -/
theorem C8_error_mapping :
    (∀ (e : AcquireError) (mc : ℚ),
        detectHandler (Except.error e) mc =
          Except.error (acquireErrorResponse AcquireError.downloadFailed)) ∧
    (∀ (e : AcquireError) (mc : ℚ) (r : Except String String),
        detectVisualHandler (Except.error e) mc r =
          Except.error (acquireErrorResponse AcquireError.downloadFailed)) ∧
    (∀ (e : AcquireError), (acquireErrorResponse e).status = 400 ∧
        (acquireErrorResponse e).code = "IMAGE_DOWNLOAD_FAILED") ∧
    (∀ (dets : List Detection) (mc : ℚ) (s : String),
        detectVisualHandler (Except.ok dets) mc (Except.error s) =
          Except.error processingFailedResponse) ∧
    detectionFailedResponse.status = 500 ∧
    processingFailedResponse.status = 500 ∧
    (∀ (dl : Except AcquireError (List Detection)) (mc : ℚ) (res : DetectResponse),
        detectHandler dl mc = Except.ok res →
          ∃ dets, dl = Except.ok dets ∧ res.faces = detectFacesPost dets mc ∧
            res.count = res.faces.length) := by
  refine ⟨fun e mc => rfl, fun e mc r => rfl, fun e => ⟨rfl, rfl⟩,
    fun dets mc s => rfl, rfl, rfl, ?_⟩
  intro dl mc res h
  cases dl with
  | error e => simp [detectHandler] at h
  | ok dets =>
    refine ⟨dets, rfl, ?_⟩
    simp only [detectHandler, detectFaces] at h
    injection h with h1
    rw [← h1]
    exact ⟨rfl, rfl⟩

theorem setPixelSafe_pix_ne (img : RGBAImage) (x y : Int) (col : RGBA) (p q : Int)
    (h : ¬(p = x ∧ q = y)) :
    (setPixelSafe img x y col).pix p q = img.pix p q := by
  unfold setPixelSafe
  split
  · exact if_neg h
  · rfl

theorem inBounds_setPixelSafe (img : RGBAImage) (x y : Int) (col : RGBA) (p q : Int) :
    inBounds (setPixelSafe img x y col) p q = inBounds img p q := by
  unfold setPixelSafe
  split <;> rfl

theorem setPixelSafe_pix_oob (img : RGBAImage) (x y : Int) (col : RGBA) (p q : Int)
    (h : inBounds img p q = false) :
    (setPixelSafe img x y col).pix p q = img.pix p q := by
  by_cases hpq : p = x ∧ q = y
  · obtain ⟨rfl, rfl⟩ := hpq
    unfold setPixelSafe
    split
    · next hin => rw [hin] at h; exact Bool.noConfusion h
    · rfl
  · exact setPixelSafe_pix_ne img x y col p q hpq

theorem writeList_pix_ne (pts : List (Int × Int)) (img : RGBAImage) (col : RGBA)
    (p q : Int) (h : (p, q) ∉ pts) :
    (writeList img pts col).pix p q = img.pix p q := by
  induction pts generalizing img with
  | nil => rfl
  | cons pt rest ih =>
    have h1 : (p, q) ≠ pt := fun hc => h (hc ▸ List.mem_cons_self pt rest)
    have h2 : (p, q) ∉ rest := fun hc => h (List.mem_cons_of_mem pt hc)
    show (writeList (setPixelSafe img pt.1 pt.2 col) rest col).pix p q = img.pix p q
    rw [ih _ h2]
    refine setPixelSafe_pix_ne img pt.1 pt.2 col p q ?_
    intro hc
    cases pt
    exact h1 (by simp_all)

theorem inBounds_writeList (pts : List (Int × Int)) (img : RGBAImage) (col : RGBA)
    (p q : Int) : inBounds (writeList img pts col) p q = inBounds img p q := by
  induction pts generalizing img with
  | nil => rfl
  | cons pt rest ih =>
    show inBounds (writeList (setPixelSafe img pt.1 pt.2 col) rest col) p q = _
    rw [ih, inBounds_setPixelSafe]

theorem writeList_pix_oob (pts : List (Int × Int)) (img : RGBAImage) (col : RGBA)
    (p q : Int) (h : inBounds img p q = false) :
    (writeList img pts col).pix p q = img.pix p q := by
  induction pts generalizing img with
  | nil => rfl
  | cons pt rest ih =>
    show (writeList (setPixelSafe img pt.1 pt.2 col) rest col).pix p q = _
    rw [ih _ (by rw [inBounds_setPixelSafe]; exact h)]
    exact setPixelSafe_pix_oob img pt.1 pt.2 col p q h

theorem drawPoints_pix_ne (pts : List (Int × Int)) (img : RGBAImage) (cx cy : Int)
    (col : RGBA) (p q : Int) (h : (p, q) ∉ ptsWrites cx cy pts) :
    (drawPoints img cx cy pts col).pix p q = img.pix p q := by
  induction pts generalizing img with
  | nil => rfl
  | cons pt rest ih =>
    have hsp : (p, q) ∉ sym8 cx cy pt.1 pt.2 ∧ (p, q) ∉ ptsWrites cx cy rest := by
      simp only [ptsWrites, List.foldr_cons] at h
      rw [List.mem_append] at h
      exact not_or.mp h
    show (drawPoints (plot8 img cx cy pt.1 pt.2 col) cx cy rest col).pix p q = _
    rw [ih _ hsp.2]
    exact writeList_pix_ne _ _ _ _ _ hsp.1

theorem inBounds_drawPoints (pts : List (Int × Int)) (img : RGBAImage) (cx cy : Int)
    (col : RGBA) (p q : Int) :
    inBounds (drawPoints img cx cy pts col) p q = inBounds img p q := by
  induction pts generalizing img with
  | nil => rfl
  | cons pt rest ih =>
    show inBounds (drawPoints (plot8 img cx cy pt.1 pt.2 col) cx cy rest col) p q = _
    rw [ih, plot8, inBounds_writeList]

theorem drawPoints_pix_oob (pts : List (Int × Int)) (img : RGBAImage) (cx cy : Int)
    (col : RGBA) (p q : Int) (h : inBounds img p q = false) :
    (drawPoints img cx cy pts col).pix p q = img.pix p q := by
  induction pts generalizing img with
  | nil => rfl
  | cons pt rest ih =>
    show (drawPoints (plot8 img cx cy pt.1 pt.2 col) cx cy rest col).pix p q = _
    rw [ih _ (by rw [plot8, inBounds_writeList]; exact h)]
    exact writeList_pix_oob _ _ _ _ _ h

theorem drawOffsets_pix_ne (ws : List Nat) (img : RGBAImage)
    (cx cy radius : Int) (col : RGBA) (lw p q : Int)
    (h : (p, q) ∉ offsetWrites cx cy radius lw ws) :
    (ws.foldl (fun im (w : Nat) =>
        let r := radius + (w : Int) - lw.tdiv 2
        if r ≤ 0 then im else drawPoints im cx cy (circlePoints r) col) img).pix p q =
      img.pix p q := by
  induction ws generalizing img with
  | nil => rfl
  | cons w rest ih =>
    have hsp : (p, q) ∉ (if radius + (w : Int) - lw.tdiv 2 ≤ 0 then ([] : List (Int × Int))
          else ptsWrites cx cy (circlePoints (radius + (w : Int) - lw.tdiv 2))) ∧
        (p, q) ∉ offsetWrites cx cy radius lw rest := by
      simp only [offsetWrites, List.foldr_cons] at h
      rw [List.mem_append] at h
      exact not_or.mp h
    show (rest.foldl _
        (if radius + (w : Int) - lw.tdiv 2 ≤ 0 then img
          else drawPoints img cx cy (circlePoints (radius + (w : Int) - lw.tdiv 2)) col)).pix p q = _
    rw [ih _ hsp.2]
    by_cases hr : radius + (w : Int) - lw.tdiv 2 ≤ 0
    · rw [if_pos hr]
    · rw [if_neg hr]
      refine drawPoints_pix_ne _ _ _ _ _ _ _ ?_
      have h1 := hsp.1
      rw [if_neg hr] at h1
      exact h1

theorem inBounds_drawOffsets (ws : List Nat) (img : RGBAImage)
    (cx cy radius : Int) (col : RGBA) (lw p q : Int) :
    inBounds (ws.foldl (fun im (w : Nat) =>
        let r := radius + (w : Int) - lw.tdiv 2
        if r ≤ 0 then im else drawPoints im cx cy (circlePoints r) col) img) p q =
      inBounds img p q := by
  induction ws generalizing img with
  | nil => rfl
  | cons w rest ih =>
    show inBounds (rest.foldl _
        (if radius + (w : Int) - lw.tdiv 2 ≤ 0 then img
          else drawPoints img cx cy (circlePoints (radius + (w : Int) - lw.tdiv 2)) col)) p q = _
    rw [ih]
    by_cases hr : radius + (w : Int) - lw.tdiv 2 ≤ 0
    · rw [if_pos hr]
    · rw [if_neg hr, inBounds_drawPoints]

theorem drawOffsets_pix_oob (ws : List Nat) (img : RGBAImage)
    (cx cy radius : Int) (col : RGBA) (lw p q : Int) (h : inBounds img p q = false) :
    (ws.foldl (fun im (w : Nat) =>
        let r := radius + (w : Int) - lw.tdiv 2
        if r ≤ 0 then im else drawPoints im cx cy (circlePoints r) col) img).pix p q =
      img.pix p q := by
  induction ws generalizing img with
  | nil => rfl
  | cons w rest ih =>
    show (rest.foldl _
        (if radius + (w : Int) - lw.tdiv 2 ≤ 0 then img
          else drawPoints img cx cy (circlePoints (radius + (w : Int) - lw.tdiv 2)) col)).pix p q = _
    by_cases hr : radius + (w : Int) - lw.tdiv 2 ≤ 0
    · rw [if_pos hr, ih _ h]
    · rw [if_neg hr, ih _ (by rw [inBounds_drawPoints]; exact h)]
      exact drawPoints_pix_oob _ _ _ _ _ _ _ h

theorem drawCircle_pix_ne (img : RGBAImage) (cx cy radius : Int) (col : RGBA)
    (lw p q : Int) (h : (p, q) ∉ circleWrites cx cy radius lw) :
    (drawCircle img cx cy radius col lw).pix p q = img.pix p q :=
  drawOffsets_pix_ne (List.range lw.toNat) img cx cy radius col lw p q h

theorem inBounds_drawCircle (img : RGBAImage) (cx cy radius : Int) (col : RGBA)
    (lw p q : Int) :
    inBounds (drawCircle img cx cy radius col lw) p q = inBounds img p q :=
  inBounds_drawOffsets (List.range lw.toNat) img cx cy radius col lw p q

theorem drawCircle_pix_oob (img : RGBAImage) (cx cy radius : Int) (col : RGBA)
    (lw p q : Int) (h : inBounds img p q = false) :
    (drawCircle img cx cy radius col lw).pix p q = img.pix p q :=
  drawOffsets_pix_oob (List.range lw.toNat) img cx cy radius col lw p q h

theorem facesFold_pix_ne (faces : List Face) (img : RGBAImage) (col : RGBA)
    (lw p q : Int) (h : (p, q) ∉ facesWrites faces lw) :
    (faces.foldl (fun im f =>
        drawCircle im (f.x + f.width.tdiv 2) (f.y + f.height.tdiv 2)
          ((max f.width f.height).tdiv 2) col lw) img).pix p q = img.pix p q := by
  induction faces generalizing img with
  | nil => rfl
  | cons f rest ih =>
    have hsp : (p, q) ∉ faceWrites lw f ∧ (p, q) ∉ facesWrites rest lw := by
      simp only [facesWrites, List.foldr_cons] at h
      rw [List.mem_append] at h
      exact not_or.mp h
    show (rest.foldl _
        (drawCircle img (f.x + f.width.tdiv 2) (f.y + f.height.tdiv 2)
          ((max f.width f.height).tdiv 2) col lw)).pix p q = _
    rw [ih _ hsp.2]
    exact drawCircle_pix_ne _ _ _ _ _ _ _ _ hsp.1

theorem facesFold_pix_oob (faces : List Face) (img : RGBAImage) (col : RGBA)
    (lw p q : Int) (h : inBounds img p q = false) :
    (faces.foldl (fun im f =>
        drawCircle im (f.x + f.width.tdiv 2) (f.y + f.height.tdiv 2)
          ((max f.width f.height).tdiv 2) col lw) img).pix p q = img.pix p q := by
  induction faces generalizing img with
  | nil => rfl
  | cons f rest ih =>
    show (rest.foldl _
        (drawCircle img (f.x + f.width.tdiv 2) (f.y + f.height.tdiv 2)
          ((max f.width f.height).tdiv 2) col lw)).pix p q = _
    rw [ih _ (by rw [inBounds_drawCircle]; exact h)]
    exact drawCircle_pix_oob _ _ _ _ _ _ _ _ h

theorem interArea_comm (d e : Detection) : interArea d e = interArea e d := by
  unfold interArea interLen
  congr 1
  · rw [min_comm (boxX d + d.scale) (boxX e + e.scale), max_comm (boxX d) (boxX e)]
  · rw [min_comm (boxY d + d.scale) (boxY e + e.scale), max_comm (boxY d) (boxY e)]

theorem unionArea_comm (d e : Detection) : unionArea d e = unionArea e d := by
  unfold unionArea
  rw [interArea_comm]
  ring_nf

theorem iou_comm (d e : Detection) : iou d e = iou e d := by
  unfold iou
  rw [interArea_comm, unionArea_comm]

theorem detLE_q {d e : Detection} (h : detLE d e) : e.q ≤ d.q := by
  unfold detLE detKey at h
  rcases (Prod.Lex.le_iff _ _).mp h with h1 | ⟨h1, _⟩ <;> dsimp only at h1
  · exact le_of_lt (by linarith)
  · exact le_of_eq (neg_inj.mp h1).symm

theorem insertionSort_pair (d e : Detection) :
    List.insertionSort detLE [d, e] =
      if detLE d e then [d, e] else [e, d] := by
  simp [List.insertionSort, List.orderedInsert]

theorem clusterGreedy_pair (t : ℚ) (u v : Detection) :
    clusterGreedy t [u, v] = if iou u v ≤ t then [u, v] else [u] := by
  by_cases hc : iou u v ≤ t
  · rw [if_pos hc]
    simp [clusterGreedy, List.filter, hc]
  · rw [if_neg hc]
    simp [clusterGreedy, List.filter, hc]

/-- C5: two raw detections whose square regions have IoU strictly above the
threshold collapse to exactly one representative carrying the higher score;
two with IoU at or below the threshold both remain; and the clustering
result is invariant under permuting the input. This settles the spec's
contract for the clustering step, modelled from the spec because pigo's
`ClusterDetections` is an external library call whose source is not in this
repository. -/
theorem C5_clustering :
    (∀ (t : ℚ) (d e : Detection), t < iou d e →
        ∃ r, clusterDetections t [d, e] = [r] ∧ (r = d ∨ r = e) ∧
          r.q = max d.q e.q) ∧
    (∀ (t : ℚ) (d e : Detection), iou d e ≤ t →
        (clusterDetections t [d, e]).length = 2 ∧
          d ∈ clusterDetections t [d, e] ∧ e ∈ clusterDetections t [d, e]) ∧
    (∀ (t : ℚ) (l l2 : List Detection), l.Perm l2 →
        clusterDetections t l = clusterDetections t l2) := by
  refine ⟨?_, ?_, ?_⟩
  · intro t d e hgt
    unfold clusterDetections
    rw [insertionSort_pair]
    by_cases hle : detLE d e
    · rw [if_pos hle, clusterGreedy_pair, if_neg (not_le.mpr hgt)]
      exact ⟨d, rfl, Or.inl rfl, (max_eq_left (detLE_q hle)).symm⟩
    · rw [if_neg hle, clusterGreedy_pair,
        if_neg (by rw [iou_comm]; exact not_le.mpr hgt)]
      have hled : detLE e d := (total_of detLE d e).resolve_left hle
      exact ⟨e, rfl, Or.inr rfl, (max_eq_right (detLE_q hled)).symm⟩
  · intro t d e hle2
    unfold clusterDetections
    rw [insertionSort_pair]
    by_cases h : detLE d e
    · rw [if_pos h, clusterGreedy_pair, if_pos hle2]
      exact ⟨rfl, by simp, by simp⟩
    · rw [if_neg h, clusterGreedy_pair, if_pos (by rw [iou_comm]; exact hle2)]
      exact ⟨rfl, by simp, by simp⟩
  · intro t l l2 hperm
    unfold clusterDetections
    congr 1
    exact List.eq_of_perm_of_sorted
      ((List.perm_insertionSort detLE l).trans
        (hperm.trans (List.perm_insertionSort detLE l2).symm))
      (List.sorted_insertionSort detLE l)
      (List.sorted_insertionSort detLE l2)

theorem offsetsSkip (ws : List Nat) (img : RGBAImage) (cx cy radius : Int)
    (col : RGBA) (lw : Int)
    (h : ∀ w : Nat, w ∈ ws → radius + (w : Int) - lw.tdiv 2 ≤ 0) :
    ws.foldl (fun im (w : Nat) =>
        let r := radius + (w : Int) - lw.tdiv 2
        if r ≤ 0 then im else drawPoints im cx cy (circlePoints r) col) img = img := by
  induction ws generalizing img with
  | nil => rfl
  | cons w rest ih =>
    show rest.foldl _
        (if radius + (w : Int) - lw.tdiv 2 ≤ 0 then img
          else drawPoints img cx cy (circlePoints (radius + (w : Int) - lw.tdiv 2)) col) = img
    rw [if_pos (h w (List.mem_cons_self w rest))]
    exact ih _ (fun w2 hw2 => h w2 (List.mem_cons_of_mem w hw2))

/-- C6 counterexample: the claim that a face with computed radius ≤ 0 causes
no pixel writes fails at the default stroke width 3: for a width-0,
height-0 face (radius 0), the offset w = 2 yields per-offset radius
0 + 2 − 3/2 = 1 and the radius-1 outline is drawn, changing pixel (5, 6) of
the 10×10 test image. -/
theorem C6_counterexample :
    (drawFaceCircles testImg
        [{ x := 5, y := 5, width := 0, height := 0, confidence := 20 }]
        { r := 255, g := 0, b := 0, a := 255 } 3).pix 5 6 ≠ testImg.pix 5 6 := by
  decide

/-- C6 amended: every stroke offset whose per-offset radius
radius + w − lineWidth/2 is ≤ 0 is skipped, so whenever every offset in
[0, lineWidth) has non-positive per-offset radius (in particular for any
radius ≤ 0 when lineWidth ≤ 2), the face causes no pixel writes and no
error; but for larger stroke widths an offset can have positive per-offset
radius even when the face's radius is ≤ 0, and its outline is drawn. -/
theorem C6_radius_skip (img : RGBAImage) (cx cy radius : Int) (col : RGBA)
    (lw : Int)
    (h : ∀ w : Int, 0 ≤ w → w < lw → radius + w - lw.tdiv 2 ≤ 0) :
    drawCircle img cx cy radius col lw = img := by
  unfold drawCircle
  apply offsetsSkip
  intro w hw
  have hwlt : w < lw.toNat := List.mem_range.mp hw
  exact h (w : Int) (Int.natCast_nonneg w) (by omega)

/-- Witness for the C6 amended theorem: radius 0 with stroke width 1 leaves
the test image untouched. -/
theorem C6_radius_skip_witness :
    drawCircle testImg 5 5 0 { r := 255, g := 0, b := 0, a := 255 } 1 = testImg :=
  C6_radius_skip testImg 5 5 0 { r := 255, g := 0, b := 0, a := 255 } 1 (by
    intro w h1 h2
    rw [show (1 : Int).tdiv 2 = 0 from rfl]
    omega)

/-- C7: `DrawFaceCircles` works on a private full copy of the source pixels
(the empty face list returns exactly the copy, and in-bounds copy pixels
equal the source pixels); every write is bounds-checked so an out-of-range
`setPixelSafe` is a silent no-op; every pixel off the drawn outlines is
unchanged from the copy; and every out-of-bounds coordinate is unchanged
from the copy. -/
theorem C7_private_copy :
    (∀ (img : RGBAImage) (x y : Int) (col : RGBA),
        inBounds img x y = false → setPixelSafe img x y col = img) ∧
    (∀ (img : RGBAImage) (col : RGBA) (lw : Int),
        drawFaceCircles img [] col lw = copyImage img) ∧
    (∀ (img : RGBAImage) (a b : Int),
        inBounds img a b = true → (copyImage img).pix a b = img.pix a b) ∧
    (∀ (img : RGBAImage) (faces : List Face) (col : RGBA) (lw p q : Int),
        (p, q) ∉ facesWrites faces lw →
          (drawFaceCircles img faces col lw).pix p q = (copyImage img).pix p q) ∧
    (∀ (img : RGBAImage) (faces : List Face) (col : RGBA) (lw p q : Int),
        inBounds img p q = false →
          (drawFaceCircles img faces col lw).pix p q = (copyImage img).pix p q) := by
  refine ⟨?_, fun img col lw => rfl, ?_, ?_, ?_⟩
  · intro img x y col h
    unfold setPixelSafe
    rw [if_neg (by simp [h])]
  · intro img a b h
    show (if inBounds img a b then img.pix a b else RGBA.mk 0 0 0 0) = img.pix a b
    rw [if_pos h]
  · intro img faces col lw p q h
    exact facesFold_pix_ne faces (copyImage img) col lw p q h
  · intro img faces col lw p q h
    exact facesFold_pix_oob faces (copyImage img) col lw p q h

end FaceAPI
